import Mathlib

/-!
Verification development for the WordPress asset-detection bundler
(`paths.config.js`, `plugins/wordpress-assets-detector.plugin.js`,
`plugins/cache-manager.plugin.js`).

The JavaScript sources are shallowly embedded: JS strings are Lean `String`s
manipulated through structural functions over `List Char` (so that every
definition evaluates by kernel reduction); JS numbers are `ℚ` (the similarity
arithmetic uses only small decimal fractions); the filesystem is an explicit
parameter (`fs : String → Bool` for existence probes, `String → Option String`
for file contents); regex-based content fingerprinting is abstracted as an
explicit extraction function parameter where a claim quantifies over extracted
signatures.
-/

/-! ## Basic string utilities -/

/-- Splits a character list at every occurrence of `sep`, mirroring
JavaScript `String.prototype.split` with a single-character separator
(`"".split(c) = [""]`, trailing separators produce a trailing `""`). -/
def splitOnChar (sep : Char) (l : List Char) : List (List Char) :=
  l.foldr (fun c acc =>
    if c = sep then [] :: acc
    else match acc with
      | h :: t => (c :: h) :: t
      | [] => [[c]]) [[]]

/-- JS `path.split('/')`. -/
def splitSlash (s : String) : List String :=
  (splitOnChar '/' s.data).map String.mk

/-- JS `Array.prototype.join(sep)`. -/
def joinWith (sep : String) : List String → String
  | [] => ""
  | h :: t => t.foldl (fun acc x => acc ++ sep ++ x) h

/-- JS `String.prototype.endsWith`. -/
def endsWithS (s suffixStr : String) : Bool :=
  List.isSuffixOf suffixStr.data s.data

/-- JS `String.prototype.startsWith`. -/
def startsWithS (s pre : String) : Bool :=
  List.isPrefixOf pre.data s.data

/-- Drops the last `n` characters (used for the anchored-suffix regex
replacements of the source, e.g. `.replace(/\.min\.(js|css)$/, ...)`). -/
def dropRightS (s : String) (n : Nat) : String :=
  String.mk (s.data.take (s.data.length - n))

/-- Drops the first `n` characters. -/
def dropS (s : String) (n : Nat) : String :=
  String.mk (s.data.drop n)

/-- Character count of a string. -/
def lengthS (s : String) : Nat :=
  s.data.length

/-- Whether `needle` occurs contiguously inside `hay`
(JS `Array/String.prototype.includes` for strings). -/
def isSubListOf (needle : List Char) : List Char → Bool
  | [] => needle.isEmpty
  | c :: t => needle.isPrefixOf (c :: t) || isSubListOf needle t

/-- JS `hay.includes(needle)` on strings. -/
def includes (hay needle : String) : Bool :=
  isSubListOf needle.data hay.data

/-- JS `if (!list.includes(x)) list.push(x)`. -/
def pushUnique (l : List String) (x : String) : List String :=
  if x ∈ l then l else l ++ [x]

/-- JS `[...new Set(list)]`: distinct values, first occurrence order. -/
def uniqueFirst (l : List String) : List String :=
  l.foldl pushUnique []

/-! ## Path utilities of the detector (`wordpress-assets-detector.plugin.js`) -/

/-- `getBaseName` (lines 26–31): file name without a `.min` marker and
without its `js`/`css`/`scss` extension. -/
def getBaseName (filePath : String) : String :=
  let fileName := (splitSlash filePath).getLastD ""
  let step1 :=
    if endsWithS fileName ".min.js" then dropRightS fileName 7 ++ ".js"
    else if endsWithS fileName ".min.css" then dropRightS fileName 8 ++ ".css"
    else fileName
  if endsWithS step1 ".js" then dropRightS step1 3
  else if endsWithS step1 ".css" then dropRightS step1 4
  else if endsWithS step1 ".scss" then dropRightS step1 5
  else step1

/-- Build-output folder names recognized by `removeBuildPrefix` (line 341). -/
def buildPatterns : List String :=
  ["dist", "build", "optimised", "optimized", "compiled", "bundle", "public", "assets", "output"]

/-- The source's `removeBuildPrefix` (lines 340–350): strips the first
matching build-folder name followed by `/` from the front of a path. -/
def removeBuildDir (path : String) : String :=
  match buildPatterns.find? (fun pat => startsWithS path (pat ++ "/")) with
  | some pat => dropS path (lengthS pat + 1)
  | none => path

/-- The source-root folder configuration consumed by the locator
(`PATHS.assetFolders`).  Each entry is optional because the source applies
`.filter(Boolean)` to the folder list (`publicDir` is in fact never defined
by `paths.config.js`, so it is always `none` in real runs). -/
structure AssetFolders where
  js : Option String
  scss : Option String
  css : Option String
  publicDir : Option String
deriving DecidableEq

/-- JS `.filter(Boolean)` on an optional folder name: `undefined` and the
empty string are discarded. -/
def truthyFolder : Option String → Option String
  | none => none
  | some s => if s = "" then none else some s

/-- `searchWithPreservedPath` (lines 359–411): structure-preserving source
search.  `fs p` tells whether `resolve(PATHS.themePath, p)` exists on disk. -/
def searchWithPreservedPath (fs : String → Bool) (cfg : AssetFolders)
    (minifiedPath : String) : Option (List String) :=
  let pathWithoutBuild := removeBuildDir minifiedPath
  let parts := splitSlash pathWithoutBuild
  let fileName := parts.getLastD ""
  let dirParts0 := parts.dropLast
  let dirParts :=
    if dirParts0.headD "" = "js" ∨ dirParts0.headD "" = "css" then dirParts0.tail
    else dirParts0
  let dirStructure := joinWith "/" dirParts
  let baseName := getBaseName fileName
  let isJs := endsWithS fileName ".js" || endsWithS fileName ".min.js"
  let extensions := if isJs then [".js"] else [".scss", ".css"]
  let sourceFolders := [cfg.js, cfg.scss, cfg.css, cfg.publicDir].filterMap truthyFolder
  let candidates := sourceFolders.flatMap (fun sourceFolder =>
    extensions.filterMap (fun ext =>
      let candidatePath :=
        if dirStructure = "" then sourceFolder ++ "/" ++ baseName ++ ext
        else sourceFolder ++ "/" ++ dirStructure ++ "/" ++ baseName ++ ext
      if fs candidatePath then some candidatePath else none))
  if 0 < candidates.length then some candidates else none

/-! ## Content Signature Matcher -/

/-- A content signature (`extractSignature`, lines 182–248): bounded lists of
string literals, numeric literals, CSS selectors and native-API names.
Numbers are kept as their matched text, exactly as the source pushes the
regex capture. -/
structure Signature where
  strings : List String
  numbers : List String
  selectors : List String
  apis : List String
deriving DecidableEq

/-- The `compareArrays` closure of `calculateSimilarity` (lines 254–261):
Jaccard overlap of the distinct values, with both-empty mapping to 0. -/
def jaccard (arr1 arr2 : List String) : ℚ :=
  if arr1 = [] ∧ arr2 = [] then 0
  else
    let interCard := ((uniqueFirst arr1).filter (fun x => x ∈ arr2)).length
    let unionCard := (uniqueFirst (arr1 ++ arr2)).length
    if 0 < unionCard then (interCard : ℚ) / unionCard else 0

/-- `calculateSimilarity` (lines 253–285).  Note that the source computes
`totalWeight` as `0.4 + 0.2 + (sig1.selectors.length > 0 ? 0.3 : 0.3)`:
both arms of the conditional are the same weight. -/
def calculateSimilarity (sig1 sig2 : Signature) : ℚ :=
  let stringSim := jaccard sig1.strings sig2.strings
  let numberSim := jaccard sig1.numbers sig2.numbers
  let selectorSim := jaccard sig1.selectors sig2.selectors
  let apiSim := jaccard sig1.apis sig2.apis
  let totalWeight : ℚ :=
    4/10 + 2/10 + (if 0 < sig1.selectors.length then (3:ℚ)/10 else (3:ℚ)/10)
  let weightedSum :=
    stringSim * (4/10) + numberSim * (2/10) +
      (if 0 < sig1.selectors.length then selectorSim * ((3:ℚ)/10)
       else apiSim * ((3:ℚ)/10))
  weightedSum / totalWeight

/-- The similarity formula exactly as claim C1 words it: each field's weight
enters the normalizing denominator only when the field is non-empty in both
signatures (with the 0.3 weight shared by selectors-or-apis). -/
def claimSimilarity (sig1 sig2 : Signature) : ℚ :=
  let strPresent := sig1.strings ≠ [] ∧ sig2.strings ≠ []
  let numPresent := sig1.numbers ≠ [] ∧ sig2.numbers ≠ []
  let selPresent := sig1.selectors ≠ [] ∧ sig2.selectors ≠ []
  let apiPresent := sig1.apis ≠ [] ∧ sig2.apis ≠ []
  let num :=
    (if strPresent then jaccard sig1.strings sig2.strings * ((4:ℚ)/10) else 0)
    + (if numPresent then jaccard sig1.numbers sig2.numbers * ((2:ℚ)/10) else 0)
    + (if selPresent then jaccard sig1.selectors sig2.selectors * ((3:ℚ)/10)
       else if apiPresent then jaccard sig1.apis sig2.apis * ((3:ℚ)/10) else 0)
  let den :=
    (if strPresent then (4:ℚ)/10 else 0) + (if numPresent then (2:ℚ)/10 else 0)
    + (if selPresent ∨ apiPresent then (3:ℚ)/10 else 0)
  if 0 < den then num / den else 0

/-- The amended form of claim C1: the denominator is the constant 9/10
(strings and numbers weights always count, plus one 0.3 for the
selectors-or-apis slot chosen by whether the first signature has selectors). -/
def amendedSimilarity (sig1 sig2 : Signature) : ℚ :=
  (jaccard sig1.strings sig2.strings * ((4:ℚ)/10)
    + jaccard sig1.numbers sig2.numbers * ((2:ℚ)/10)
    + (if sig1.selectors ≠ [] then jaccard sig1.selectors sig2.selectors
       else jaccard sig1.apis sig2.apis) * ((3:ℚ)/10)) / ((9:ℚ)/10)

/-- The best-match loop of `findBySignature` (lines 302–318): candidates
that do not exist on disk are skipped, and a candidate becomes the new best
exactly when its score strictly exceeds the best so far (initially null with
score 0). -/
def bestCandidate (contents : String → Option String)
    (extractSig : String → Bool → Signature) (minifiedSig : Signature)
    (isJs : Bool) (candidates : List String) : Option String × ℚ :=
  candidates.foldl (fun (acc : Option String × ℚ) candidate =>
    match contents candidate with
    | none => acc
    | some candidateCode =>
      let score := calculateSimilarity minifiedSig (extractSig candidateCode isJs)
      if acc.2 < score then (some candidate, score) else acc) (none, 0)

/-- `findBySignature` (lines 293–327).  `contents p` is the text of the file
at `p` when it exists and is readable (`existsSync` + `readFileSync`), `none`
otherwise; `extractSig code isJs` abstracts `extractSignature`'s regex
fingerprinting of a file's text. -/
def findBySignature (contents : String → Option String)
    (extractSig : String → Bool → Signature)
    (minifiedPath : String) (candidates : List String) : Option String :=
  match contents minifiedPath with
  | none => none
  | some minifiedCode =>
    let isJs := endsWithS minifiedPath ".js"
    let minifiedSig := extractSig minifiedCode isJs
    let best := bestCandidate contents extractSig minifiedSig isJs candidates
    if (3:ℚ)/10 ≤ best.2 then best.1 else none

/-! ## Source Locator -/

/-- Result of `findSourceFile`, instrumented with which fallback layers ran:
`usedSignature` records that `findBySignature` was invoked, and
`usedFilenameSearch` that the filename-only fallback search was invoked. -/
structure LocatorResult where
  result : Option String
  usedSignature : Bool
  usedFilenameSearch : Bool
deriving DecidableEq

/-- The candidate-list handling `findSourceFile` performs twice
(lines 462–473 and 478–489): a unique candidate is returned directly,
several candidates go through signature matching with a deterministic
first-candidate fallback, and an empty list falls through (`none`). -/
def pickFromCandidates (sigMatch : String → List String → Option String)
    (minifiedPath : String) (cs : List String) (viaFilename : Bool) :
    Option LocatorResult :=
  if cs.length = 1 then some ⟨some (cs.headD ""), false, viaFilename⟩
  else if 1 < cs.length then
    match sigMatch minifiedPath cs with
    | some best => some ⟨some best, true, viaFilename⟩
    | none => some ⟨some (cs.headD ""), true, viaFilename⟩
  else none

/-- `findSourceFile` (lines 458–493), with the Content Signature Matcher and
the filename-only fallback search (`searchByFilename`) abstracted as the
parameters `sigMatch` and `byFilename`. -/
def findSourceFile (fs : String → Bool) (cfg : AssetFolders)
    (sigMatch : String → List String → Option String)
    (byFilename : String → Option (List String))
    (minifiedPath : String) : LocatorResult :=
  let fromStructure :=
    match searchWithPreservedPath fs cfg minifiedPath with
    | some cs => pickFromCandidates sigMatch minifiedPath cs false
    | none => none
  match fromStructure with
  | some r => r
  | none =>
    match byFilename minifiedPath with
    | some cs =>
      match pickFromCandidates sigMatch minifiedPath cs true with
      | some r => r
      | none => ⟨none, false, true⟩
    | none => ⟨none, false, true⟩

/-! ## Registration Scanner: hook categorization and asset accumulation -/

/-- The three asset contexts of the AssetMap. -/
inductive AssetContext
  | front
  | admin
  | editor
deriving DecidableEq

/-- The hook-name → context(s) rule applied to every registration found
inside a lifecycle-hook block (`detectAssetsFromWordPress`, lines 620–643
for scripts and 673–696 for styles; both chains are identical). -/
def categorizeHook (hook : String) : List AssetContext :=
  if includes hook "wp_enqueue_scripts" then [.front]
  else if includes hook "enqueue_block_editor_assets" then [.editor]
  else if includes hook "enqueue_block_assets" then [.front, .editor]
  else if includes hook "admin" || includes hook "login" || includes hook "customize_register" then [.admin]
  else [.admin]

/-- The rule table exactly as the spec and claim C4 state it (first match
wins, top to bottom; the fourth row says "customizer" where the code greps
for "customize_register", but both that row and the default row yield
Admin). -/
def specHookContext (hook : String) : List AssetContext :=
  if includes hook "wp_enqueue_scripts" then [.front]
  else if includes hook "enqueue_block_editor_assets" then [.editor]
  else if includes hook "enqueue_block_assets" then [.front, .editor]
  else if includes hook "admin" || includes hook "login" || includes hook "customizer" then [.admin]
  else [.admin]

/-- Scripts and styles accumulated for one context before the
source-vs-library split (the `assets[context]` object of
`detectAssetsFromWordPress`, line 581). -/
structure RawContext where
  scripts : List String
  styles : List String
deriving DecidableEq

/-- The intermediate `assets` record of `detectAssetsFromWordPress`. -/
structure RawAssets where
  front : RawContext
  admin : RawContext
  editor : RawContext
  buildFolder : String
deriving DecidableEq

/-- Selects one context's raw lists. -/
def rawCtx (a : RawAssets) : AssetContext → RawContext
  | .front => a.front
  | .admin => a.admin
  | .editor => a.editor

/-- Dedup-push of a resolved script path into one context
(`if (!assets.ctx.scripts.includes(p)) assets.ctx.scripts.push(p)`). -/
def addScriptTo (a : RawAssets) (ctx : AssetContext) (path : String) : RawAssets :=
  match ctx with
  | .front => { a with front := { a.front with scripts := pushUnique a.front.scripts path } }
  | .admin => { a with admin := { a.admin with scripts := pushUnique a.admin.scripts path } }
  | .editor => { a with editor := { a.editor with scripts := pushUnique a.editor.scripts path } }

/-- Dedup-push of a resolved style path into one context. -/
def addStyleTo (a : RawAssets) (ctx : AssetContext) (path : String) : RawAssets :=
  match ctx with
  | .front => { a with front := { a.front with styles := pushUnique a.front.styles path } }
  | .admin => { a with admin := { a.admin with styles := pushUnique a.admin.styles path } }
  | .editor => { a with editor := { a.editor with styles := pushUnique a.editor.styles path } }

/-- One script registration record: the hook's categorization decides the
target context lists (hybrid hooks push to both Front and Editor). -/
def addScript (a : RawAssets) (hook path : String) : RawAssets :=
  (categorizeHook hook).foldl (fun acc ctx => addScriptTo acc ctx path) a

/-- One style registration record. -/
def addStyle (a : RawAssets) (hook path : String) : RawAssets :=
  (categorizeHook hook).foldl (fun acc ctx => addStyleTo acc ctx path) a

/-- The accumulation phase of `detectAssetsFromWordPress` (lines 581–722):
all script registrations are processed first, then all style registrations,
then the hookless `add_editor_style` paths, which always go to Editor styles.
Each record is a `(hook, resolved source path)` pair, i.e. the output of
`resolvePhpUrl` + `findSourceFile` for one registration call. -/
def buildRawAssets (buildFolder : String) (scripts styles : List (String × String))
    (editorStyles : List String) : RawAssets :=
  let a0 : RawAssets := ⟨⟨[], []⟩, ⟨[], []⟩, ⟨[], []⟩, buildFolder⟩
  let a1 := scripts.foldl (fun acc hp => addScript acc hp.1 hp.2) a0
  let a2 := styles.foldl (fun acc hp => addStyle acc hp.1 hp.2) a1
  editorStyles.foldl (fun acc p => addStyleTo acc .editor p) a2

/-! ## Library Classifier -/

/-- Outcome of `isLibrary`'s partial file read (lines 755–764): the file is
missing, the first 2000 bytes were read (with the three content heuristics
of lines 766–781 evaluated on them), or an I/O error was thrown. -/
inductive ReadOutcome
  | missing
  | content (hasBanner longFirstLine minifiedPattern : Bool)
  | ioError
deriving DecidableEq

/-- `basename` of `isLibrary` (line 783): last path segment with an anchored
`.min.js`/`.min.css` suffix collapsed to nothing. -/
def libBasename (filePath : String) : String :=
  let fileName := (splitSlash filePath).getLastD ""
  if endsWithS fileName ".min.js" then dropRightS fileName 7
  else if endsWithS fileName ".min.css" then dropRightS fileName 8
  else fileName

/-- `KNOWN_SOURCES` (line 784). -/
def KNOWN_SOURCES : List String := ["main", "style", "admin", "editor"]

/-- `isLibrary` (lines 755–796).  The catch branch (line 794) tests the three
allowlist names as substrings of the whole path and omits "editor", unlike
the in-`try` filename fallback (lines 783–790). -/
def isLibrary (outcome : ReadOutcome) (filePath : String) : Bool :=
  match outcome with
  | .missing => false
  | .content hasBanner longFirstLine minifiedPattern =>
    if hasBanner then true
    else if longFirstLine then true
    else if minifiedPattern then true
    else if includes filePath ".min." then !(KNOWN_SOURCES.contains (libBasename filePath))
    else false
  | .ioError =>
    includes filePath ".min." && !(["main", "style", "admin"].any (fun s => includes filePath s))

/-- The non-error filename-based fallback of `isLibrary` (lines 783–790),
which claim C8 says the error path degrades to: Library exactly when the
path contains the minified marker and the base name is not in the
known-sources allowlist. -/
def filenameFallback (filePath : String) : Bool :=
  if includes filePath ".min." then !(KNOWN_SOURCES.contains (libBasename filePath))
  else false

/-! ## Categorized asset map -/

/-- One context of the final AssetMap: authored sources vs third-party libs. -/
structure ContextAssets where
  sources : List String
  libs : List String
deriving DecidableEq

/-- The final AssetMap produced by `categorizeAssets` and returned by
`detectAssetsFromWordPress`. -/
structure AssetMap where
  front : ContextAssets
  admin : ContextAssets
  editor : ContextAssets
  buildFolder : String
deriving DecidableEq

/-- Selects one context of an AssetMap. -/
def mapCtx (m : AssetMap) : AssetContext → ContextAssets
  | .front => m.front
  | .admin => m.admin
  | .editor => m.editor

/-- One context of `categorizeAssets` (lines 809–825): every script is pushed
to `libs` or `sources` according to `isLibrary`, then every style.
`readOutcome p` abstracts the partial file read `isLibrary` performs on `p`. -/
def categorizeContext (readOutcome : String → ReadOutcome) (c : RawContext) : ContextAssets :=
  { sources := c.scripts.filter (fun s => !isLibrary (readOutcome s) s)
      ++ c.styles.filter (fun s => !isLibrary (readOutcome s) s)
    libs := c.scripts.filter (fun s => isLibrary (readOutcome s) s)
      ++ c.styles.filter (fun s => isLibrary (readOutcome s) s) }

/-- `categorizeAssets` (lines 801–828). -/
def categorizeAssets (readOutcome : String → ReadOutcome) (assets : RawAssets) : AssetMap :=
  { front := categorizeContext readOutcome assets.front
    admin := categorizeContext readOutcome assets.admin
    editor := categorizeContext readOutcome assets.editor
    buildFolder := assets.buildFolder }

/-- The empty AssetMap with the static default build folder, returned both on
a scan error and when zero registration files are found (lines 541–546 and
740–745). -/
def emptyAssetMap : AssetMap :=
  ⟨⟨[], []⟩, ⟨[], []⟩, ⟨[], []⟩, "dist"⟩

/-! ## PHP URL resolution (`resolvePhpUrl`, lines 147–169)

The JS implementation performs three global regex replacements.  They are
modelled as fuel-indexed structural scanners over `List Char` (the fuel is
the input length, which each step strictly consumes, so it never runs out);
the constant and variable names fed to them are captures of `[\w_]+` / `\w+`,
i.e. non-empty words, which is what makes the `\b` boundary model below
exact. -/

/-- JS regex `\w`: `[A-Za-z0-9_]`. -/
def isWordChar (c : Char) : Bool :=
  c.isAlpha || c.isDigit || c = '_'

/-- Word boundary before a match whose pattern starts with a word character:
start of string or a non-word previous character. -/
def boundaryBefore : Option Char → Bool
  | none => true
  | some c => !isWordChar c

/-- Word boundary after a match whose pattern ends with a word character:
end of string or a non-word next character. -/
def boundaryAfter : List Char → Bool
  | [] => true
  | c :: _ => !isWordChar c

/-- A quote character (`['"]`). -/
def isQuoteChar (c : Char) : Bool :=
  c = '\'' || c = '"'

/-- Global replacement of `\bname\b` by `repl`
(`resolvedUrl.replace(new RegExp('\\b' + constantName + '\\b', 'g'), ...)`,
line 152–153): left-to-right, non-overlapping, replacement text never
rescanned.  `prev` is the character before the current position. -/
def replaceWordFuel (name repl : List Char) : Nat → Option Char → List Char → List Char
  | _, _, [] => []
  | 0, _, l => l
  | fuel + 1, prev, c :: rest =>
    if name.isPrefixOf (c :: rest) && boundaryBefore prev
        && boundaryAfter ((c :: rest).drop name.length) && !name.isEmpty then
      repl ++ replaceWordFuel name repl fuel (some (name.getLastD c)) ((c :: rest).drop name.length)
    else c :: replaceWordFuel name repl fuel (some c) rest

/-- Whether `\bname\b` matches anywhere in the input (same guard as
`replaceWordFuel`). -/
def hasWordOccur (name : List Char) : Option Char → List Char → Bool
  | _, [] => false
  | prev, c :: rest =>
    (name.isPrefixOf (c :: rest) && boundaryBefore prev
      && boundaryAfter ((c :: rest).drop name.length) && !name.isEmpty)
    || hasWordOccur name (some c) rest

/-- Global replacement of `\$name\b` by `repl` (line 158–159). -/
def replaceVarFuel (name repl : List Char) : Nat → List Char → List Char
  | _, [] => []
  | 0, l => l
  | fuel + 1, c :: rest =>
    if c == '$' && name.isPrefixOf rest && boundaryAfter (rest.drop name.length)
        && !name.isEmpty then
      repl ++ replaceVarFuel name repl fuel (rest.drop name.length)
    else c :: replaceVarFuel name repl fuel rest

/-- Whether `\$name\b` matches anywhere in the input. -/
def hasVarOccur (name : List Char) : List Char → Bool
  | [] => false
  | c :: rest =>
    (c == '$' && name.isPrefixOf rest && boundaryAfter (rest.drop name.length)
      && !name.isEmpty)
    || hasVarOccur name rest

/-- After an opening quote, tries to match `\s*\.\s*['"]` and returns the
remaining input (the tail of the full `['"]\s*\.\s*['"]` match). -/
def matchConcatTail (l : List Char) : Option (List Char) :=
  let l1 := l.dropWhile (fun c => c.isWhitespace)
  match l1 with
  | '.' :: l2 =>
    (match l2.dropWhile (fun c => c.isWhitespace) with
     | c :: l4 => if isQuoteChar c then some l4 else none
     | [] => none)
  | _ => none

/-- Global deletion of `['"]\s*\.\s*['"]` (the PHP concatenation cleanup,
line 165). -/
def removeConcatFuel : Nat → List Char → List Char
  | _, [] => []
  | 0, l => l
  | fuel + 1, c :: rest =>
    if isQuoteChar c then
      match matchConcatTail rest with
      | some rest2 => removeConcatFuel fuel rest2
      | none => c :: removeConcatFuel fuel rest
    else c :: removeConcatFuel fuel rest

/-- Whether `['"]\s*\.\s*['"]` matches anywhere in the input. -/
def hasConcatPat : List Char → Bool
  | [] => false
  | c :: rest => (isQuoteChar c && (matchConcatTail rest).isSome) || hasConcatPat rest

/-- `replace(/^['"]|['"]$/g, '')` (line 166): one leading and one trailing
quote removed. -/
def stripOuterQuotes (l : List Char) : List Char :=
  let l1 := match l with
    | c :: rest => if isQuoteChar c then rest else l
    | [] => []
  match l1.getLast? with
  | some c => if isQuoteChar c then l1.dropLast else l1
  | none => l1

/-- The replacement text for a resolved constant or variable: the value
wrapped in single quotes (`'${constantValue}'`). -/
def quoteWrap (v : List Char) : List Char :=
  '\'' :: v ++ ['\'']

/-- `resolvePhpUrl` (lines 147–169).  `constants` and `vars` (the source's
`variables`) are insertion-ordered association lists, matching
`Object.entries` iteration order over the tables built by
`parsePhpConstants` / `parsePhpVariables`. -/
def resolvePhpUrl (constants vars : List (String × String))
    (urlPattern : String) : String :=
  let step1 := constants.foldl
    (fun acc nv => replaceWordFuel nv.1.data (quoteWrap nv.2.data) acc.length none acc)
    urlPattern.data
  let step2 := vars.foldl
    (fun acc nv => replaceVarFuel nv.1.data (quoteWrap nv.2.data) acc.length acc)
    step1
  String.mk (stripOuterQuotes (removeConcatFuel step2.length step2))

/-! ## Cache Manager (`cache-manager.plugin.js`) -/

/-- The persisted cache entry `{ hash, timestamp, assets }` (line 431).
`assets` is optional: a well-formed JSON file need not carry the field. -/
structure CacheData where
  hash : String
  timestamp : String
  assets : Option AssetMap
deriving DecidableEq

/-- `readCache` (lines 371–383).  `cacheFile` is the cache file's text when
it exists and is readable, `none` otherwise; `parse` is JSON parsing, `none`
on malformed content.  Corruption and unreadability both yield `none`
(caught, never propagated). -/
def readCache (cacheFile : Option String) (parse : String → Option CacheData) :
    Option CacheData :=
  match cacheFile with
  | none => none
  | some content => parse content

/-- `cache.assets?.buildFolder || null` (line 418): JS `||` turns an absent
assets object or an empty build-folder string into `null`. -/
def storedOldBuildFolder (c : CacheData) : Option String :=
  match c.assets with
  | none => none
  | some a => if a.buildFolder = "" then none else some a.buildFolder

/-- The decision core of `getCachedAssets` (lines 405–423) applied to an
already-read cache entry. -/
def getCachedAssetsD (currentHash : String) (cache : Option CacheData) :
    Option AssetMap × Option String :=
  match cache with
  | none => (none, none)
  | some c =>
    if c.hash ≠ currentHash then (none, storedOldBuildFolder c)
    else (c.assets, none)

/-- `getCachedAssets` (lines 405–423): `currentHash` abstracts
`calculatePhpFilesHash()`. -/
def getCachedAssets (currentHash : String) (cacheFile : Option String)
    (parse : String → Option CacheData) : Option AssetMap × Option String :=
  getCachedAssetsD currentHash (readCache cacheFile parse)

/-! ## The detector's two-tier cache and error handling
(`detectAssetsFromWordPress`, lines 507–750) -/

/-- Mutable state visible to `detectAssetsFromWordPress`: the module-level
in-process memo `cachedAssets` (line 7) and the on-disk cache entry. -/
structure DetectState where
  memo : Option AssetMap
  disk : Option CacheData
deriving DecidableEq

/-- Outcome of the expensive scan body (lines 521–736): a successful
resolution producing a map, the explicit zero-registration-files-found
result (lines 539–547), or a thrown error (caught at line 738). -/
inductive ScanOutcome
  | ok (result : AssetMap)
  | noFiles
  | err
deriving DecidableEq

/-- One invocation of `detectAssetsFromWordPress`.  Returns the produced
AssetMap, the state afterwards, and whether the scan tier actually ran.
`saveCachedAssets` (lines 428–438) is inlined as the disk overwrite in the
`ok` branch; neither the `noFiles` nor the `err` branch writes the disk
cache, and only the `err` branch memoizes its empty result. -/
def detectAssetsStep (currentHash timestamp : String) (scan : ScanOutcome)
    (st : DetectState) : AssetMap × DetectState × Bool :=
  match st.memo with
  | some m => (m, st, false)
  | none =>
    match (getCachedAssetsD currentHash st.disk).1 with
    | some persistent => (persistent, { st with memo := some persistent }, false)
    | none =>
      match scan with
      | .ok result =>
        (result, { memo := some result,
                   disk := some ⟨currentHash, timestamp, some result⟩ }, true)
      | .noFiles => (emptyAssetMap, st, true)
      | .err => (emptyAssetMap, { st with memo := some emptyAssetMap }, true)

/-! ## Rollup entry-point generation (`generateRollupInputs`, lines 857–904) -/

/-- `path.replace(/\.(js|ts|scss|css)$/, '')`. -/
def dropSourceExt (p : String) : String :=
  if endsWithS p ".js" then dropRightS p 3
  else if endsWithS p ".ts" then dropRightS p 3
  else if endsWithS p ".scss" then dropRightS p 5
  else if endsWithS p ".css" then dropRightS p 4
  else p

/-- The entry-name derivation of `generateRollupInputs` (lines 877–890):
drop the extension, join the last two path segments with `§`, and for a
`.scss` path replace a leading `sourceFolder + '§'` — where `sourceFolder`
is the path's FIRST segment — by the css folder name. -/
def rollupName (cssFolder : String) (path : String) : String :=
  let pathWithoutExt := dropSourceExt path
  let pathParts := splitSlash pathWithoutExt
  let name :=
    if 2 < pathParts.length then joinWith "§" (pathParts.drop (pathParts.length - 2))
    else joinWith "§" pathParts
  if endsWithS path ".scss" then
    let sourceFolder := pathParts.headD ""
    if startsWithS name (sourceFolder ++ "§") then
      cssFolder ++ "§" ++ dropS name (lengthS (sourceFolder ++ "§"))
    else name
  else name

/-- The name derivation as claim C9 words it: for every `.scss` path the
name's first segment is remapped to the css output folder name. -/
def claimRollupName (cssFolder : String) (path : String) : String :=
  let parts := splitSlash (dropSourceExt path)
  let name := joinWith "§" (parts.drop (parts.length - 2))
  if endsWithS path ".scss" then
    joinWith "§" (cssFolder :: ((splitOnChar '§' name.data).map String.mk).tail)
  else name

/-- The amended name derivation: the remap to the css folder applies only
when the joined name begins with the path's first segment followed by the
separator (which is automatic for paths of at most two segments). -/
def amendedRollupName (cssFolder : String) (path : String) : String :=
  let parts := splitSlash (dropSourceExt path)
  let name := joinWith "§" (parts.drop (parts.length - 2))
  if endsWithS path ".scss" && startsWithS name (parts.headD "" ++ "§") then
    cssFolder ++ "§" ++ dropS name (lengthS (parts.headD "" ++ "§"))
  else name

/-- JS object key assignment `inputs[name] = value`: an existing key keeps
its position and gets the new value, a new key is appended. -/
def insertAssoc (l : List (String × String)) (k v : String) : List (String × String) :=
  if l.any (fun kv => kv.1 == k) then
    l.map (fun kv => if kv.1 == k then (k, v) else kv)
  else l ++ [(k, v)]

/-- The concatenation of the three contexts' sources (lines 861–865). -/
def allSources (assets : AssetMap) : List String :=
  assets.front.sources ++ assets.admin.sources ++ assets.editor.sources

/-- `generateRollupInputs` (lines 857–904): dedup all sources, skip paths
missing on disk, and map each remaining path's derived entry name to its
absolute path (`resolve(PATHS.themePath, path)`, modelled as
`themePath ++ "/" ++ path`).  Missing files only produce warnings. -/
def generateRollupInputs (fs : String → Bool) (themePath cssFolder : String)
    (assets : AssetMap) : List (String × String) :=
  let uniqueSources := uniqueFirst (allSources assets)
  uniqueSources.foldl (fun inputs path =>
    if fs path then insertAssoc inputs (rollupName cssFolder path) (themePath ++ "/" ++ path)
    else inputs) []

/-- Whether the first character is a quote (the `^['"]` half of the
outer-quote strip). -/
def headIsQuote : List Char → Bool
  | [] => false
  | c :: _ => isQuoteChar c

/-- Whether the last character is a quote (the `['"]$` half of the
outer-quote strip). -/
def lastIsQuote (l : List Char) : Bool :=
  match l.getLast? with
  | none => false
  | some c => isQuoteChar c

/-- All six accumulated registration lists of a `RawAssets` are
duplicate-free. -/
def rawAllNodup (a : RawAssets) : Prop :=
  (a.front.scripts.Nodup ∧ a.front.styles.Nodup)
  ∧ (a.admin.scripts.Nodup ∧ a.admin.styles.Nodup)
  ∧ (a.editor.scripts.Nodup ∧ a.editor.styles.Nodup)

/-! ## Generic helper lemmas -/

/-- A predicate preserved by every step of a left fold is preserved by the
whole fold. -/
theorem foldl_pres {α β : Type} (P : α → Prop) (f : α → β → α)
    (h : ∀ a b, P a → P (f a b)) : ∀ (l : List β) (a : α), P a → P (l.foldl f a) := by
  intro l
  induction l with
  | nil => exact fun a ha => ha
  | cons x xs ih => exact fun a ha => ih (f a x) (h a x ha)

/-- A common fixed point of every step of a left fold is a fixed point of the
whole fold. -/
theorem foldl_fix {α β : Type} (g : α → β → α) (s : α) :
    ∀ (L : List β), (∀ x ∈ L, g s x = s) → L.foldl g s = s := by
  intro L
  induction L with
  | nil => intro _; rfl
  | cons x xs ih =>
    intro h
    rw [List.foldl_cons, h x (List.mem_cons_self x xs)]
    exact ih fun y hy => h y (List.mem_cons_of_mem x hy)

/-- `pushUnique` preserves `Nodup`. -/
theorem pushUnique_nodup {l : List String} {x : String} (h : l.Nodup) :
    (pushUnique l x).Nodup := by
  unfold pushUnique
  split_ifs with hmem
  · exact h
  · simpa [List.nodup_append] using ⟨h, hmem⟩

/-! ## C2: unique structural candidate short-circuits the locator -/

/-- C2: whenever the structure-preserving search yields exactly one
candidate, `findSourceFile` returns that candidate, and neither the Content
Signature Matcher nor the filename-only fallback search is invoked —
the result holds for every matcher and every fallback searcher. -/
theorem findSourceFile_unique_structural (fs : String → Bool) (cfg : AssetFolders)
    (sigMatch : String → List String → Option String)
    (byFilename : String → Option (List String)) (p c : String)
    (h : searchWithPreservedPath fs cfg p = some [c]) :
    findSourceFile fs cfg sigMatch byFilename p = ⟨some c, false, false⟩ := by
  unfold findSourceFile
  rw [h]
  rfl

/-- C2 witness: `dist/css/components/card.min.css` with the sole existing
candidate `scss/components/card.scss`. -/
theorem findSourceFile_unique_structural_witness :
    findSourceFile (fun s => s == "scss/components/card.scss")
      ⟨some "js", some "scss", some "css", none⟩
      (fun _ _ => none) (fun _ => none)
      "dist/css/components/card.min.css"
      = ⟨some "scss/components/card.scss", false, false⟩ :=
  findSourceFile_unique_structural _ _ _ _ _ _ (by decide)

/-! ## C4: the lifecycle-hook → context rule table -/

/-- C4: the context assignment of every registration inside a lifecycle-hook
block follows the fixed first-match-wins rule table of the spec: the public
front hook maps to Front, the block-editor hook to Editor, the hybrid block
hook to Front and Editor, hooks mentioning admin/login/customizer to Admin,
and anything else to Admin as the conservative default. -/
theorem hook_context_table (hook : String) :
    categorizeHook hook = specHookContext hook := by
  unfold categorizeHook specHookContext
  split_ifs <;> rfl

/-! ## C5: cache read semantics -/

/-- C5: `getCachedAssets` returns the persisted assets exactly when a
well-formed cache entry was read and its stored hash equals the freshly
computed one; on a hash mismatch it returns no assets together with the
previously stored build folder; a missing/corrupt/unreadable cache file
(`readCache` = none) yields `(none, none)` — and in the model every case is
a total function result, never an error. -/
theorem getCachedAssets_spec (currentHash : String) (cacheFile : Option String)
    (parse : String → Option CacheData) :
    (readCache cacheFile parse = none →
      getCachedAssets currentHash cacheFile parse = (none, none))
    ∧ (∀ c, readCache cacheFile parse = some c →
      getCachedAssets currentHash cacheFile parse =
        if c.hash = currentHash then (c.assets, none)
        else (none, storedOldBuildFolder c)) := by
  constructor
  · intro h
    unfold getCachedAssets
    rw [h]
    rfl
  · intro c h
    unfold getCachedAssets
    rw [h]
    unfold getCachedAssetsD
    by_cases hh : c.hash = currentHash <;> simp [hh]

/-- C5 witness: a readable cache file whose entry hash matches the current
hash is served back verbatim. -/
theorem getCachedAssets_spec_witness :
    getCachedAssets "h1" (some "cachetext")
      (fun s => if s = "cachetext" then some ⟨"h1", "t0", some emptyAssetMap⟩ else none)
      = (some emptyAssetMap, none) := by
  have h := (getCachedAssets_spec "h1" (some "cachetext")
      (fun s => if s = "cachetext" then some ⟨"h1", "t0", some emptyAssetMap⟩ else none)).2
      ⟨"h1", "t0", some emptyAssetMap⟩ (by decide)
  simpa using h

/-! ## C10: error memoization vs the zero-files result -/

/-- C10: with an empty memo and no valid disk cache, a scan error returns the
empty AssetMap (buildFolder "dist"), memoizes it, and leaves the disk cache
untouched; any subsequent invocation then returns the memoized empty map
without running the scan at all; while the zero-registration-files outcome
returns the same empty map but stores it in neither the memo nor the disk
cache. -/
theorem detectAssets_error_memo (currentHash timestamp ch2 ts2 : String)
    (st : DetectState) (scan2 : ScanOutcome)
    (hmemo : st.memo = none)
    (hdisk : (getCachedAssetsD currentHash st.disk).1 = none) :
    detectAssetsStep currentHash timestamp ScanOutcome.err st
        = (emptyAssetMap, ⟨some emptyAssetMap, st.disk⟩, true)
    ∧ detectAssetsStep ch2 ts2 scan2 ⟨some emptyAssetMap, st.disk⟩
        = (emptyAssetMap, ⟨some emptyAssetMap, st.disk⟩, false)
    ∧ detectAssetsStep currentHash timestamp ScanOutcome.noFiles st
        = (emptyAssetMap, st, true) := by
  obtain ⟨m, d⟩ := st
  simp only at hmemo
  subst hmemo
  refine ⟨?_, rfl, ?_⟩
  · unfold detectAssetsStep
    simp only
    rw [hdisk]
  · unfold detectAssetsStep
    simp only
    rw [hdisk]

/-- C10 witness: fresh state (no memo, no disk cache). -/
theorem detectAssets_error_memo_witness :
    detectAssetsStep "h" "t" ScanOutcome.err ⟨none, none⟩
        = (emptyAssetMap, ⟨some emptyAssetMap, none⟩, true)
    ∧ detectAssetsStep "h2" "t2" (ScanOutcome.ok emptyAssetMap) ⟨some emptyAssetMap, none⟩
        = (emptyAssetMap, ⟨some emptyAssetMap, none⟩, false)
    ∧ detectAssetsStep "h" "t" ScanOutcome.noFiles ⟨none, none⟩
        = (emptyAssetMap, ⟨none, none⟩, true) :=
  detectAssets_error_memo "h" "t" "h2" "t2" ⟨none, none⟩ (ScanOutcome.ok emptyAssetMap) rfl rfl

/-! ## C8: the I/O-error branch of the Library Classifier -/

/-- C8 counterexample: on an I/O error, `isLibrary` classifies
`js/editor.min.js` as Library (its substring allowlist omits "editor"),
while the non-error filename fallback classifies it as Source (its base name
is in the known-sources allowlist) — so the error path is NOT the same
classification as the filename fallback. -/
theorem isLibrary_ioError_cex :
    isLibrary ReadOutcome.ioError "js/editor.min.js"
      ≠ filenameFallback "js/editor.min.js" := by decide

/-- C8 amended: on an I/O error `isLibrary` degrades to a coarser test —
Library exactly when the whole path contains ".min." and contains none of
"main"/"style"/"admin" as substrings.  This agrees with the non-error
filename fallback precisely on paths where that substring test coincides
with the base-name allowlist test (the generic case); it differs e.g. on
`js/editor.min.js` and `js/domain.min.js`. -/
theorem isLibrary_ioError_fallback (filePath : String)
    (h : includes filePath ".min." = true →
      (["main", "style", "admin"].any (fun s => includes filePath s)
        = KNOWN_SOURCES.contains (libBasename filePath))) :
    isLibrary ReadOutcome.ioError filePath = filenameFallback filePath := by
  unfold isLibrary filenameFallback
  cases hm : includes filePath ".min." with
  | false => simp [hm]
  | true => simp [hm, h hm]

/-- C8 witness: `js/slider.min.js` — both classifiers agree it is a Library. -/
theorem isLibrary_ioError_fallback_witness :
    isLibrary ReadOutcome.ioError "js/slider.min.js"
      = filenameFallback "js/slider.min.js" :=
  isLibrary_ioError_fallback "js/slider.min.js" (by decide)

/-! ## C1: similarity normalization -/

/-- Evaluation helper for `jaccard` on non-both-empty inputs. -/
theorem jaccard_eval (arr1 arr2 : List String) (i u : Nat)
    (hne : ¬(arr1 = [] ∧ arr2 = []))
    (hi : ((uniqueFirst arr1).filter (fun x => x ∈ arr2)).length = i)
    (hu : (uniqueFirst (arr1 ++ arr2)).length = u) (hu0 : 0 < u) :
    jaccard arr1 arr2 = (i : ℚ) / u := by
  unfold jaccard
  rw [if_neg hne]
  simp only [hi, hu]
  rw [if_pos hu0]

/-- C1 counterexample: for the extracted-signature pair with no string
literals, the shared numeric literal "1" and the shared API name "fetch"
(what `extractSignature` yields for the script text `fetch(1)`), the code
computes (0·0.4 + 1·0.2 + 1·0.3)/0.9 = 5/9, while the claim's formula —
normalizing only by the weights of fields present in both documents —
yields (0.2 + 0.3)/(0.2 + 0.3) = 1. -/
theorem calculateSimilarity_claim_cex :
    calculateSimilarity ⟨[], ["1"], [], ["fetch"]⟩ ⟨[], ["1"], [], ["fetch"]⟩
      ≠ claimSimilarity ⟨[], ["1"], [], ["fetch"]⟩ ⟨[], ["1"], [], ["fetch"]⟩ := by
  have hnum : jaccard ["1"] ["1"] = 1 := by
    rw [jaccard_eval ["1"] ["1"] 1 1 (by simp) (by decide) (by decide) (by decide)]
    norm_num
  have hapi : jaccard ["fetch"] ["fetch"] = 1 := by
    rw [jaccard_eval ["fetch"] ["fetch"] 1 1 (by simp) (by decide) (by decide) (by decide)]
    norm_num
  have h0 : jaccard [] [] = 0 := by
    unfold jaccard
    rw [if_pos ⟨rfl, rfl⟩]
  have hcode : calculateSimilarity ⟨[], ["1"], [], ["fetch"]⟩ ⟨[], ["1"], [], ["fetch"]⟩
      = 5/9 := by
    show (jaccard [] [] * (4/10) + jaccard ["1"] ["1"] * (2/10) +
        (if 0 < ([] : List String).length then jaccard [] [] * ((3:ℚ)/10)
         else jaccard ["fetch"] ["fetch"] * ((3:ℚ)/10))) /
      (4/10 + 2/10 + (if 0 < ([] : List String).length then (3:ℚ)/10 else (3:ℚ)/10))
      = 5/9
    rw [h0, hnum, hapi]
    norm_num
  have hclaim : claimSimilarity ⟨[], ["1"], [], ["fetch"]⟩ ⟨[], ["1"], [], ["fetch"]⟩
      = 1 := by
    unfold claimSimilarity
    rw [hnum, hapi]
    norm_num
  rw [hcode, hclaim]
  norm_num

/-- C1 amended: the combined score is the weighted sum (strings 0.4,
numbers 0.2, selectors-or-apis 0.3 — selectors when the first signature has
selector tokens, apis otherwise) divided by the CONSTANT 9/10: the strings
and numbers weights are always in the denominator even when those fields are
empty in both signatures, and the 0.3 slot is always counted. -/
theorem calculateSimilarity_amended (sig1 sig2 : Signature) :
    calculateSimilarity sig1 sig2 = amendedSimilarity sig1 sig2 := by
  unfold calculateSimilarity amendedSimilarity
  by_cases h : sig1.selectors = []
  · simp only [h, List.length_nil, Nat.lt_irrefl, if_false, ne_eq,
      not_true_eq_false, if_neg]
    norm_num
  · have hlen : 0 < sig1.selectors.length := List.length_pos.mpr h
    simp only [hlen, if_true, ne_eq, h, not_false_eq_true, if_pos]
    norm_num

/-! ## C9: rollup entry-name derivation -/

/-- The two-branch "last two segments" computation of the source equals the
uniform `drop (length - 2)` form. -/
theorem lastTwo_join (l : List String) :
    (if 2 < l.length then joinWith "§" (l.drop (l.length - 2))
     else joinWith "§" l)
    = joinWith "§" (l.drop (l.length - 2)) := by
  by_cases h : 2 < l.length
  · rw [if_pos h]
  · rw [if_neg h]
    have h0 : l.length - 2 = 0 := by omega
    rw [h0, List.drop_zero]

/-- The source's name derivation coincides with the amended description:
the scss remap happens exactly when the joined name starts with the path's
first segment plus the separator. -/
theorem rollupName_eq_amended (cssFolder path : String) :
    rollupName cssFolder path = amendedRollupName cssFolder path := by
  unfold rollupName amendedRollupName
  simp only [lastTwo_join]
  set l := splitSlash (dropSourceExt path) with hl
  set nm := joinWith "§" (List.drop (l.length - 2) l) with hnm
  cases hs : endsWithS path ".scss" <;>
    cases hp : startsWithS nm (l.headD "" ++ "§") <;>
      simp [hs, hp]

/-- Membership through a JS-style keyed insertion: an element of
`insertAssoc l k v` is either the inserted pair or an element of `l`. -/
theorem insertAssoc_mem (l : List (String × String)) (k v : String)
    (kv : String × String) (h : kv ∈ insertAssoc l k v) :
    kv = (k, v) ∨ kv ∈ l := by
  unfold insertAssoc at h
  split_ifs at h with hany
  · rcases List.mem_map.mp h with ⟨kv2, hmem, heq⟩
    by_cases hk : kv2.1 == k
    · left
      rw [← heq, if_pos hk]
    · right
      rw [← heq, if_neg hk]
      exact hmem
  · rcases List.mem_append.mp h with h1 | h1
    · right; exact h1
    · left; simpa using h1

/-- Every entry accumulated by the `generateRollupInputs` fold comes from a
processed source path that exists on disk. -/
theorem rollupFold_mem (fs : String → Bool) (themePath cssFolder : String)
    (S : List String) :
    ∀ (paths : List String) (acc : List (String × String)),
      (∀ p ∈ paths, p ∈ S) →
      (∀ kv ∈ acc, ∃ path, fs path = true ∧ path ∈ S
          ∧ kv.1 = rollupName cssFolder path ∧ kv.2 = themePath ++ "/" ++ path) →
      ∀ kv ∈ paths.foldl (fun inputs path =>
          if fs path then
            insertAssoc inputs (rollupName cssFolder path) (themePath ++ "/" ++ path)
          else inputs) acc,
        ∃ path, fs path = true ∧ path ∈ S
          ∧ kv.1 = rollupName cssFolder path ∧ kv.2 = themePath ++ "/" ++ path := by
  intro paths
  induction paths with
  | nil => intro acc _ hacc kv hkv; exact hacc kv hkv
  | cons p ps ih =>
    intro acc hps hacc kv hkv
    rw [List.foldl_cons] at hkv
    refine ih _ (fun q hq => hps q (List.mem_cons_of_mem _ hq)) ?_ kv hkv
    intro kv2 hkv2
    by_cases hfs : fs p = true
    · rw [if_pos hfs] at hkv2
      rcases insertAssoc_mem _ _ _ _ hkv2 with heq | hmem
      · exact ⟨p, hfs, hps p (List.mem_cons_self _ _), by rw [heq], by rw [heq]⟩
      · exact hacc kv2 hmem
    · rw [if_neg hfs] at hkv2
      exact hacc kv2 hkv2

/-- C9 counterexample: for the style source `scss/components/card.scss`
(three segments, structure-preserved), the generated entry name keeps
`components` as its first segment — the css-folder remap the claim demands
for every `.scss` path does not happen. -/
theorem rollupInputs_scss_name_cex :
    generateRollupInputs (fun p => p == "scss/components/card.scss") "T" "css"
        ⟨⟨["scss/components/card.scss"], []⟩, ⟨[], []⟩, ⟨[], []⟩, "dist"⟩
      = [("components§card", "T/scss/components/card.scss")]
    ∧ claimRollupName "css" "scss/components/card.scss" = "css§card"
    ∧ ("components§card" : String) ≠ "css§card" := by
  refine ⟨by decide, by decide, by decide⟩

/-- C9 amended: every entry of `generateRollupInputs` comes from a unique,
on-disk source path, its value is that path resolved against the theme
root, and its name is the amended derivation — extension dropped, last two
segments joined with `§`, and the first name segment remapped to the css
output folder only when it coincides with the path's first segment. -/
theorem generateRollupInputs_entries (fs : String → Bool)
    (themePath cssFolder : String) (assets : AssetMap) (kv : String × String)
    (h : kv ∈ generateRollupInputs fs themePath cssFolder assets) :
    ∃ path, fs path = true ∧ path ∈ uniqueFirst (allSources assets)
      ∧ kv.1 = amendedRollupName cssFolder path
      ∧ kv.2 = themePath ++ "/" ++ path := by
  unfold generateRollupInputs at h
  rcases rollupFold_mem fs themePath cssFolder (uniqueFirst (allSources assets))
      (uniqueFirst (allSources assets)) [] (fun q hq => hq) (by intro kv2 hkv2; cases hkv2)
      kv h with ⟨path, h1, h2, h3, h4⟩
  exact ⟨path, h1, h2, by rw [h3, rollupName_eq_amended], h4⟩

/-- C9 amended witness: the single generated entry for
`scss/components/card.scss`. -/
theorem generateRollupInputs_entries_witness :
    ∃ path, (fun p => p == "scss/components/card.scss") path = true
      ∧ path ∈ uniqueFirst (allSources
          ⟨⟨["scss/components/card.scss"], []⟩, ⟨[], []⟩, ⟨[], []⟩, "dist"⟩)
      ∧ ("components§card" : String) = amendedRollupName "css" path
      ∧ ("T/scss/components/card.scss" : String) = "T" ++ "/" ++ path := by
  have h := generateRollupInputs_entries (fun p => p == "scss/components/card.scss")
      "T" "css" ⟨⟨["scss/components/card.scss"], []⟩, ⟨[], []⟩, ⟨[], []⟩, "dist"⟩
      ("components§card", "T/scss/components/card.scss") (by decide)
  simpa using h

/-! ## C6: uniqueness and disjointness in the categorized AssetMap -/

/-- `addScriptTo` preserves Nodup of all six accumulated lists. -/
theorem addScriptTo_nodup (a : RawAssets) (c : AssetContext) (p : String)
    (h : rawAllNodup a) : rawAllNodup (addScriptTo a c p) := by
  obtain ⟨⟨h1, h2⟩, ⟨h3, h4⟩, h5, h6⟩ := h
  cases c with
  | front => exact ⟨⟨pushUnique_nodup h1, h2⟩, ⟨h3, h4⟩, h5, h6⟩
  | admin => exact ⟨⟨h1, h2⟩, ⟨pushUnique_nodup h3, h4⟩, h5, h6⟩
  | editor => exact ⟨⟨h1, h2⟩, ⟨h3, h4⟩, pushUnique_nodup h5, h6⟩

/-- `addStyleTo` preserves Nodup of all six accumulated lists. -/
theorem addStyleTo_nodup (a : RawAssets) (c : AssetContext) (p : String)
    (h : rawAllNodup a) : rawAllNodup (addStyleTo a c p) := by
  obtain ⟨⟨h1, h2⟩, ⟨h3, h4⟩, h5, h6⟩ := h
  cases c with
  | front => exact ⟨⟨h1, pushUnique_nodup h2⟩, ⟨h3, h4⟩, h5, h6⟩
  | admin => exact ⟨⟨h1, h2⟩, ⟨h3, pushUnique_nodup h4⟩, h5, h6⟩
  | editor => exact ⟨⟨h1, h2⟩, ⟨h3, h4⟩, h5, pushUnique_nodup h6⟩

/-- All six lists accumulated by `buildRawAssets` are duplicate-free (every
context's scripts list and styles list is built through the dedup-push). -/
theorem buildRawAssets_nodup (buildFolder : String)
    (scripts styles : List (String × String)) (editorStyles : List String) :
    rawAllNodup (buildRawAssets buildFolder scripts styles editorStyles) := by
  unfold buildRawAssets
  apply foldl_pres rawAllNodup _
    (fun a p ha => addStyleTo_nodup a .editor p ha) editorStyles
  apply foldl_pres rawAllNodup _
    (fun a hp ha => foldl_pres rawAllNodup _
      (fun a2 c ha2 => addStyleTo_nodup a2 c hp.2 ha2) (categorizeHook hp.1) a ha) styles
  apply foldl_pres rawAllNodup _
    (fun a hp ha => foldl_pres rawAllNodup _
      (fun a2 c ha2 => addScriptTo_nodup a2 c hp.2 ha2) (categorizeHook hp.1) a ha) scripts
  exact ⟨⟨List.nodup_nil, List.nodup_nil⟩, ⟨List.nodup_nil, List.nodup_nil⟩,
    List.nodup_nil, List.nodup_nil⟩

/-- Reading one context of `categorizeAssets` is `categorizeContext` of the
same context's raw lists. -/
theorem mapCtx_categorize (ro : String → ReadOutcome) (a : RawAssets)
    (ctx : AssetContext) :
    mapCtx (categorizeAssets ro a) ctx = categorizeContext ro (rawCtx a ctx) := by
  cases ctx <;> rfl

/-- C6 counterexample: registering the same resolved path once as a script
and once as a style on the same front hook (which the PHP scanner does for a
block containing both a `wp_enqueue_script` and a `wp_enqueue_style` call
with the same resolved source) produces a front `sources` list with a
duplicate entry — the claimed no-duplicates invariant fails. -/
theorem categorizeAssets_dup_cex :
    ¬ ((categorizeAssets (fun _ => ReadOutcome.ioError)
        (buildRawAssets "dist" [("wp_enqueue_scripts", "scss/style.scss")]
          [("wp_enqueue_scripts", "scss/style.scss")] [])).front.sources.Nodup) := by
  decide

/-- C6 amended: in every context of the categorized AssetMap, no path is in
both `sources` and `libs` (unconditionally, since the classifier is a
function of the path); and `sources` and `libs` are each duplicate-free
provided the context's accumulated script and style path lists share no
path (each of the two is individually deduped on insertion; only a path
registered both as a script and as a style can repeat). -/
theorem categorizeAssets_invariants (readOutcome : String → ReadOutcome)
    (buildFolder : String) (scripts styles : List (String × String))
    (editorStyles : List String) (ctx : AssetContext) (p : String) :
    (p ∈ (mapCtx (categorizeAssets readOutcome
          (buildRawAssets buildFolder scripts styles editorStyles)) ctx).sources →
      p ∉ (mapCtx (categorizeAssets readOutcome
          (buildRawAssets buildFolder scripts styles editorStyles)) ctx).libs)
    ∧ ((rawCtx (buildRawAssets buildFolder scripts styles editorStyles) ctx).scripts.Disjoint
          (rawCtx (buildRawAssets buildFolder scripts styles editorStyles) ctx).styles →
        (mapCtx (categorizeAssets readOutcome
            (buildRawAssets buildFolder scripts styles editorStyles)) ctx).sources.Nodup
        ∧ (mapCtx (categorizeAssets readOutcome
            (buildRawAssets buildFolder scripts styles editorStyles)) ctx).libs.Nodup) := by
  rw [mapCtx_categorize]
  obtain ⟨⟨f1, f2⟩, ⟨a1, a2⟩, e1, e2⟩ :=
    buildRawAssets_nodup buildFolder scripts styles editorStyles
  have hS : (rawCtx (buildRawAssets buildFolder scripts styles editorStyles) ctx).scripts.Nodup := by
    cases ctx with
    | front => exact f1
    | admin => exact a1
    | editor => exact e1
  have hT : (rawCtx (buildRawAssets buildFolder scripts styles editorStyles) ctx).styles.Nodup := by
    cases ctx with
    | front => exact f2
    | admin => exact a2
    | editor => exact e2
  constructor
  · unfold categorizeContext
    intro hp hl
    have hfalse : isLibrary (readOutcome p) p = false := by
      rcases List.mem_append.mp hp with h1 | h1 <;>
        simpa using (List.mem_filter.mp h1).2
    have htrue : isLibrary (readOutcome p) p = true := by
      rcases List.mem_append.mp hl with h1 | h1 <;>
        simpa using (List.mem_filter.mp h1).2
    rw [hfalse] at htrue
    exact Bool.false_ne_true htrue
  · intro hdisj
    unfold categorizeContext
    constructor
    · refine List.Nodup.append (List.Nodup.filter _ hS) (List.Nodup.filter _ hT) ?_
      intro x hx1 hx2
      exact hdisj (List.mem_filter.mp hx1).1 (List.mem_filter.mp hx2).1
    · refine List.Nodup.append (List.Nodup.filter _ hS) (List.Nodup.filter _ hT) ?_
      intro x hx1 hx2
      exact hdisj (List.mem_filter.mp hx1).1 (List.mem_filter.mp hx2).1

/-- C6 amended witness: a front context with one script and one distinct
style — disjointness holds, the lists are duplicate-free, and the style
source is not in `libs`. -/
theorem categorizeAssets_invariants_witness :
    ("scss/style.scss" ∉ (mapCtx (categorizeAssets (fun _ => ReadOutcome.ioError)
        (buildRawAssets "dist" [("wp_enqueue_scripts", "js/app.js")]
          [("wp_enqueue_scripts", "scss/style.scss")] [])) AssetContext.front).libs)
    ∧ (mapCtx (categorizeAssets (fun _ => ReadOutcome.ioError)
        (buildRawAssets "dist" [("wp_enqueue_scripts", "js/app.js")]
          [("wp_enqueue_scripts", "scss/style.scss")] [])) AssetContext.front).sources.Nodup
    ∧ (mapCtx (categorizeAssets (fun _ => ReadOutcome.ioError)
        (buildRawAssets "dist" [("wp_enqueue_scripts", "js/app.js")]
          [("wp_enqueue_scripts", "scss/style.scss")] [])) AssetContext.front).libs.Nodup := by
  have h := categorizeAssets_invariants (fun _ => ReadOutcome.ioError) "dist"
    [("wp_enqueue_scripts", "js/app.js")] [("wp_enqueue_scripts", "scss/style.scss")] []
    AssetContext.front "scss/style.scss"
  have hsc : (rawCtx (buildRawAssets "dist" [("wp_enqueue_scripts", "js/app.js")]
      [("wp_enqueue_scripts", "scss/style.scss")] []) AssetContext.front).scripts
      = ["js/app.js"] := by decide
  have hst : (rawCtx (buildRawAssets "dist" [("wp_enqueue_scripts", "js/app.js")]
      [("wp_enqueue_scripts", "scss/style.scss")] []) AssetContext.front).styles
      = ["scss/style.scss"] := by decide
  have hd : (rawCtx (buildRawAssets "dist" [("wp_enqueue_scripts", "js/app.js")]
      [("wp_enqueue_scripts", "scss/style.scss")] []) AssetContext.front).scripts.Disjoint
      (rawCtx (buildRawAssets "dist" [("wp_enqueue_scripts", "js/app.js")]
      [("wp_enqueue_scripts", "scss/style.scss")] []) AssetContext.front).styles := by
    rw [hsc, hst]
    intro x hx1 hx2
    rw [List.mem_singleton] at hx1 hx2
    rw [hx1] at hx2
    exact absurd hx2 (by decide)
  exact ⟨h.1 (by decide), (h.2 hd).1, (h.2 hd).2⟩

/-! ## C7: idempotence of `resolvePhpUrl` -/

/-- A constant-replacement pass is the identity when its pattern has no
word-boundary match in the input. -/
theorem replaceWordFuel_id (name repl : List Char) :
    ∀ (l : List Char) (fuel : Nat) (prev : Option Char),
      hasWordOccur name prev l = false →
      replaceWordFuel name repl fuel prev l = l := by
  intro l
  induction l with
  | nil => intro fuel prev _; cases fuel <;> rfl
  | cons c rest ih =>
    intro fuel prev h
    simp only [hasWordOccur, Bool.or_eq_false_iff] at h
    obtain ⟨hg, hrest⟩ := h
    cases fuel with
    | zero => rfl
    | succ f =>
      simp only [replaceWordFuel]
      rw [hg]
      simp only [Bool.false_eq_true, if_false]
      rw [ih f (some c) hrest]

/-- A variable-replacement pass is the identity when its pattern has no
match in the input. -/
theorem replaceVarFuel_id (name repl : List Char) :
    ∀ (l : List Char) (fuel : Nat),
      hasVarOccur name l = false →
      replaceVarFuel name repl fuel l = l := by
  intro l
  induction l with
  | nil => intro fuel _; cases fuel <;> rfl
  | cons c rest ih =>
    intro fuel h
    simp only [hasVarOccur, Bool.or_eq_false_iff] at h
    obtain ⟨hg, hrest⟩ := h
    cases fuel with
    | zero => rfl
    | succ f =>
      simp only [replaceVarFuel]
      rw [hg]
      simp only [Bool.false_eq_true, if_false]
      rw [ih f hrest]

/-- The concatenation-cleanup pass is the identity when the quote-dot-quote
pattern does not occur. -/
theorem removeConcatFuel_id :
    ∀ (l : List Char) (fuel : Nat),
      hasConcatPat l = false → removeConcatFuel fuel l = l := by
  intro l
  induction l with
  | nil => intro fuel _; cases fuel <;> rfl
  | cons c rest ih =>
    intro fuel h
    simp only [hasConcatPat, Bool.or_eq_false_iff] at h
    obtain ⟨hg, hrest⟩ := h
    cases fuel with
    | zero => rfl
    | succ f =>
      simp only [removeConcatFuel]
      cases hq : isQuoteChar c with
      | false => simp [hq, ih f hrest]
      | true =>
        rw [hq] at hg
        simp only [Bool.true_and] at hg
        have hnone : matchConcatTail rest = none := by
          cases hmt : matchConcatTail rest with
          | none => rfl
          | some r2 => rw [hmt] at hg; exact absurd hg (by simp)
        simp [hq, hnone, ih f hrest]

/-- The outer-quote strip is the identity when the input neither begins nor
ends with a quote. -/
theorem stripOuterQuotes_id (l : List Char) (h1 : headIsQuote l = false)
    (h2 : lastIsQuote l = false) : stripOuterQuotes l = l := by
  cases l with
  | nil => rfl
  | cons c rest =>
    simp only [headIsQuote] at h1
    simp only [lastIsQuote] at h2
    simp only [stripOuterQuotes, h1, Bool.false_eq_true, if_false]
    cases hl : (c :: rest).getLast? with
    | none => simp [hl]
    | some d =>
      rw [hl] at h2
      have h2d : isQuoteChar d = false := h2
      simp [hl, h2d]

/-- `resolvePhpUrl` fixes any string on which none of its four passes can
act. -/
theorem resolvePhpUrl_fix (constants vars : List (String × String)) (s : String)
    (hs1 : constants.foldl
      (fun acc nv => replaceWordFuel nv.1.data (quoteWrap nv.2.data) acc.length none acc)
      s.data = s.data)
    (hs2 : vars.foldl
      (fun acc nv => replaceVarFuel nv.1.data (quoteWrap nv.2.data) acc.length acc)
      s.data = s.data)
    (hc : hasConcatPat s.data = false)
    (hh : headIsQuote s.data = false)
    (hl : lastIsQuote s.data = false) :
    resolvePhpUrl constants vars s = s := by
  simp only [resolvePhpUrl]
  rw [hs1, hs2, removeConcatFuel_id s.data s.data.length hc,
    stripOuterQuotes_id s.data hh hl]

/-- C7 counterexample: with the extractable constant table `A ↦ "A b"`
(from `define('A', get_template_directory_uri() . '/A b/')`), resolving the
raw expression `A` once yields `A b`, but resolving a second time
substitutes the constant again inside the result and yields `A b' b`:
`resolvePhpUrl` is not idempotent. -/
theorem resolvePhpUrl_not_idempotent_cex :
    resolvePhpUrl [("A", "A b")] [] (resolvePhpUrl [("A", "A b")] [] "A")
      ≠ resolvePhpUrl [("A", "A b")] [] "A" := by decide

/-- C7 amended: resolving twice yields the same path as resolving once
provided the once-resolved result is inert — no constant name occurs in it
as a `\b`-delimited word, no `$variable` reference occurs in it, the PHP
concatenation pattern does not occur in it, and it neither begins nor ends
with a quote.  (The counterexample shows the restriction is needed exactly
when a substituted value reintroduces a constant name or quote.) -/
theorem resolvePhpUrl_idempotent_inert (constants vars : List (String × String))
    (u : String)
    (hconst : ∀ nv ∈ constants,
      hasWordOccur nv.1.data none (resolvePhpUrl constants vars u).data = false)
    (hvar : ∀ nv ∈ vars,
      hasVarOccur nv.1.data (resolvePhpUrl constants vars u).data = false)
    (hconcat : hasConcatPat (resolvePhpUrl constants vars u).data = false)
    (hhead : headIsQuote (resolvePhpUrl constants vars u).data = false)
    (hlast : lastIsQuote (resolvePhpUrl constants vars u).data = false) :
    resolvePhpUrl constants vars (resolvePhpUrl constants vars u)
      = resolvePhpUrl constants vars u := by
  refine resolvePhpUrl_fix constants vars _ ?_ ?_ hconcat hhead hlast
  · exact foldl_fix _ _ constants (fun nv hnv =>
      replaceWordFuel_id nv.1.data (quoteWrap nv.2.data) _ _ none (hconst nv hnv))
  · exact foldl_fix _ _ vars (fun nv hnv =>
      replaceVarFuel_id nv.1.data (quoteWrap nv.2.data) _ _ (hvar nv hnv))

/-- C7 amended witness: the source's own worked example
`OPTI_PATH_URI . '/css/' . $suffix . '.css'` resolves to
`dist/css/dark.css`, which is inert, so a second resolution is a no-op. -/
theorem resolvePhpUrl_idempotent_inert_witness :
    resolvePhpUrl [("OPTI_PATH_URI", "dist")] [("suffix", "dark")]
        (resolvePhpUrl [("OPTI_PATH_URI", "dist")] [("suffix", "dark")]
          "OPTI_PATH_URI . '/css/' . $suffix . '.css'")
      = resolvePhpUrl [("OPTI_PATH_URI", "dist")] [("suffix", "dark")]
          "OPTI_PATH_URI . '/css/' . $suffix . '.css'" :=
  resolvePhpUrl_idempotent_inert [("OPTI_PATH_URI", "dist")] [("suffix", "dark")]
    "OPTI_PATH_URI . '/css/' . $suffix . '.css'"
    (by decide) (by decide) (by decide) (by decide) (by decide)

/-! ## C3: the acceptance threshold of the Signature Matcher -/

/-- Membership-aware fold preservation. -/
theorem foldl_pres_mem {α β : Type} (P : α → Prop) (S : List β) (f : α → β → α)
    (h : ∀ a b, b ∈ S → P a → P (f a b)) :
    ∀ (l : List β), (∀ x ∈ l, x ∈ S) → ∀ (a : α), P a → P (l.foldl f a) := by
  intro l
  induction l with
  | nil => intro _ a ha; exact ha
  | cons x xs ih =>
    intro hmem a ha
    exact ih (fun y hy => hmem y (List.mem_cons_of_mem x hy)) (f a x)
      (h a x (hmem x (List.mem_cons_self x xs)) ha)

/-- The best-match accumulator is either still the initial null/0 pair or an
existing candidate paired with exactly its own similarity score. -/
theorem bestCandidate_spec (contents : String → Option String)
    (extractSig : String → Bool → Signature) (minifiedSig : Signature)
    (isJs : Bool) (candidates : List String) :
    bestCandidate contents extractSig minifiedSig isJs candidates = (none, 0)
    ∨ ∃ c code, c ∈ candidates ∧ contents c = some code
      ∧ bestCandidate contents extractSig minifiedSig isJs candidates
        = (some c, calculateSimilarity minifiedSig (extractSig code isJs)) := by
  unfold bestCandidate
  refine foldl_pres_mem (fun r : Option String × ℚ =>
      r = (none, 0) ∨ ∃ c code, c ∈ candidates ∧ contents c = some code
        ∧ r = (some c, calculateSimilarity minifiedSig (extractSig code isJs)))
    candidates _ ?_ candidates (fun x hx => hx) (none, 0) (Or.inl rfl)
  intro a b hb ha
  cases hcb : contents b with
  | none => simpa [hcb] using ha
  | some code =>
    simp only [hcb]
    by_cases hlt : a.2 < calculateSimilarity minifiedSig (extractSig code isJs)
    · rw [if_pos hlt]
      exact Or.inr ⟨b, code, hb, hcb, rfl⟩
    · rw [if_neg hlt]
      exact ha

/-- When every existing candidate scores below the bound, so does the final
best score (which starts at 0). -/
theorem bestCandidate_lt (contents : String → Option String)
    (extractSig : String → Bool → Signature) (minifiedSig : Signature)
    (isJs : Bool) (candidates : List String)
    (h : ∀ c ∈ candidates, ∀ code, contents c = some code →
      calculateSimilarity minifiedSig (extractSig code isJs) < (3:ℚ)/10) :
    (bestCandidate contents extractSig minifiedSig isJs candidates).2 < (3:ℚ)/10 := by
  unfold bestCandidate
  refine foldl_pres_mem (fun r : Option String × ℚ => r.2 < (3:ℚ)/10)
    candidates _ ?_ candidates (fun x hx => hx) (none, 0) (by norm_num)
  intro a b hb ha
  cases hcb : contents b with
  | none => simpa [hcb] using ha
  | some code =>
    simp only [hcb]
    by_cases hlt : a.2 < calculateSimilarity minifiedSig (extractSig code isJs)
    · rw [if_pos hlt]
      exact h b hb code hcb
    · rw [if_neg hlt]
      exact ha

/-- C3: `findBySignature` returns a candidate only when that candidate
exists, the artifact exists, and the candidate's combined similarity score
is at least 3/10; it returns null whenever every existing candidate scores
below 3/10; and in the null case `findSourceFile` deterministically falls
back to the first candidate in enumeration order (in both the
structure-preserving branch and the filename-fallback branch). -/
theorem findBySignature_threshold (contents : String → Option String)
    (extractSig : String → Bool → Signature) (minifiedPath : String)
    (candidates : List String) :
    (∀ c, findBySignature contents extractSig minifiedPath candidates = some c →
      c ∈ candidates ∧ ∃ minifiedCode code,
        contents minifiedPath = some minifiedCode ∧ contents c = some code ∧
        (3:ℚ)/10 ≤ calculateSimilarity
          (extractSig minifiedCode (endsWithS minifiedPath ".js"))
          (extractSig code (endsWithS minifiedPath ".js")))
    ∧ ((∀ minifiedCode, contents minifiedPath = some minifiedCode →
          ∀ c ∈ candidates, ∀ code, contents c = some code →
          calculateSimilarity (extractSig minifiedCode (endsWithS minifiedPath ".js"))
              (extractSig code (endsWithS minifiedPath ".js")) < (3:ℚ)/10) →
        findBySignature contents extractSig minifiedPath candidates = none)
    ∧ (∀ (fs : String → Bool) (cfg : AssetFolders)
          (byFilename : String → Option (List String)) (cs : List String),
        searchWithPreservedPath fs cfg minifiedPath = some cs → 1 < cs.length →
        findBySignature contents extractSig minifiedPath cs = none →
        findSourceFile fs cfg (findBySignature contents extractSig) byFilename minifiedPath
          = ⟨some (cs.headD ""), true, false⟩)
    ∧ (∀ (fs : String → Bool) (cfg : AssetFolders)
          (byFilename : String → Option (List String)) (cs : List String),
        searchWithPreservedPath fs cfg minifiedPath = none →
        byFilename minifiedPath = some cs → 1 < cs.length →
        findBySignature contents extractSig minifiedPath cs = none →
        findSourceFile fs cfg (findBySignature contents extractSig) byFilename minifiedPath
          = ⟨some (cs.headD ""), true, true⟩) := by
  refine ⟨?_, ?_, ?_, ?_⟩
  · intro c hc
    cases hm : contents minifiedPath with
    | none =>
      rw [findBySignature, hm] at hc
      exact absurd hc (by simp)
    | some minCode =>
      simp only [findBySignature, hm] at hc
      split_ifs at hc with hif
      · rcases bestCandidate_spec contents extractSig
            (extractSig minCode (endsWithS minifiedPath ".js"))
            (endsWithS minifiedPath ".js") candidates with hz | ⟨c2, code, hc2, hcode, heq⟩
        · rw [hz] at hif
          norm_num at hif
        · rw [heq] at hc hif
          obtain rfl : c2 = c := by simpa using hc
          exact ⟨hc2, minCode, code, rfl, hcode, hif⟩
  · intro hall
    cases hm : contents minifiedPath with
    | none => rw [findBySignature, hm]
    | some minCode =>
      simp only [findBySignature, hm]
      have hlt := bestCandidate_lt contents extractSig
        (extractSig minCode (endsWithS minifiedPath ".js"))
        (endsWithS minifiedPath ".js") candidates
        (fun c hc code hcode => hall minCode hm c hc code hcode)
      rw [if_neg (not_le.mpr hlt)]
  · intro fs cfg byFilename cs hswp hlen hnone
    have h1 : ¬ cs.length = 1 := by omega
    simp only [findSourceFile, hswp, pickFromCandidates, h1, hlen, hnone,
      if_true, if_false]
  · intro fs cfg byFilename cs hswp hbf hlen hnone
    have h1 : ¬ cs.length = 1 := by omega
    simp only [findSourceFile, hswp, hbf, pickFromCandidates, h1, hlen, hnone,
      if_true, if_false]

/-- C3 witness: with empty extracted signatures every candidate scores
0 < 3/10, so the matcher returns null. -/
theorem findBySignature_threshold_witness :
    findBySignature (fun _ => some "") (fun _ _ => Signature.mk [] [] [] [])
      "dist/js/app.min.js" ["js/app.js"] = none := by
  refine (findBySignature_threshold (fun _ => some "")
      (fun _ _ => Signature.mk [] [] [] []) "dist/js/app.min.js" ["js/app.js"]).2.1 ?_
  intro minCode hmin c hc code hcode
  have hj : jaccard [] [] = 0 := by
    unfold jaccard
    rw [if_pos ⟨rfl, rfl⟩]
  have h0 : calculateSimilarity (Signature.mk [] [] [] [])
      (Signature.mk [] [] [] []) = 0 := by
    show (jaccard [] [] * (4/10) + jaccard [] [] * (2/10) +
        (if 0 < ([] : List String).length then jaccard [] [] * ((3:ℚ)/10)
         else jaccard [] [] * ((3:ℚ)/10))) /
      (4/10 + 2/10 + (if 0 < ([] : List String).length then (3:ℚ)/10 else (3:ℚ)/10))
      = 0
    rw [hj]
    norm_num
  show calculateSimilarity (Signature.mk [] [] [] []) (Signature.mk [] [] [] [])
      < (3:ℚ)/10
  rw [h0]
  norm_num
